import Mathlib

/-!
Shallow embedding of the utilz repository: the level-filtered in-memory
logger from src/logger.rs, and three stateless utilities from src/lib.rs
(fallible narrowing conversions, duration pretty-printing, clamping).

The logger's Rust code keeps two process-wide statics, LOGS (a vector of
records) and LOG_LEVEL (the current threshold), behind reader/writer
locks. The embedding bundles the two statics into one state value and
turns each public operation into an explicit state-passing function; the
wall clock read by SystemTime::now is passed in as a seconds-since-epoch
argument. The synchronous and asynchronous builds share the same bodies
and differ only in the initial threshold, so one set of functions models
both, with one initial state per build.
-/

/-- The LogLevel enumeration, variants in the source's declaration order:
Error, Debug, Info, Warn. -/
inductive LogLevel where
  | Error
  | Debug
  | Info
  | Warn
deriving DecidableEq

/-- The variants of LogLevel in the order the Rust enum declares them. -/
def LogLevel.decl_order : List LogLevel :=
  [LogLevel.Error, LogLevel.Debug, LogLevel.Info, LogLevel.Warn]

/-- Rendering of a LogLevel by the derived Debug formatter, as used by the
format string in get_logs: the variant's name. -/
def LogLevel.fmt_debug : LogLevel → String
  | LogLevel.Error => "Error"
  | LogLevel.Debug => "Debug"
  | LogLevel.Info => "Info"
  | LogLevel.Warn => "Warn"

/-- A buffered record, struct Logger in the source: message, level, and the
capture time. The source stores a SystemTime and converts it to whole
seconds since UNIX_EPOCH when rendering; here the time is kept directly as
that second count. -/
structure Logger where
  message : String
  level : LogLevel
  time : Nat
deriving DecidableEq

/-- The process-wide mutable state of the log facility: the statics LOGS
(the buffer, in append order) and LOG_LEVEL (the threshold). -/
structure LogState where
  logs : List Logger
  log_level : LogLevel
deriving DecidableEq

/-- level_priority from src/logger.rs: Error=1, Warn=2, Info=3, Debug=4. -/
def level_priority : LogLevel → Nat
  | LogLevel.Error => 1
  | LogLevel.Warn => 2
  | LogLevel.Info => 3
  | LogLevel.Debug => 4

/-- Initial state of the synchronous build: empty buffer, threshold Debug
(static LOG_LEVEL under cfg(not(feature = "async"))). -/
def initial_sync : LogState := { logs := [], log_level := LogLevel.Debug }

/-- Initial state of the asynchronous build: empty buffer, threshold Info
(static LOG_LEVEL under cfg(feature = "async")). -/
def initial_async : LogState := { logs := [], log_level := LogLevel.Info }

namespace Log

/-- get_level: read the current threshold. -/
def get_level (s : LogState) : LogLevel := s.log_level

/-- Log::set_up_logger: overwrite the threshold. -/
def set_up_logger (level : LogLevel) (s : LogState) : LogState :=
  { s with log_level := level }

/-- Log::log_with_level: if the level's priority is at most the current
threshold's priority, push a record built from the message, the level and
the current time onto the buffer; otherwise do nothing. -/
def log_with_level (now : Nat) (level : LogLevel) (message : String)
    (s : LogState) : LogState :=
  if level_priority level ≤ level_priority (get_level s) then
    { s with logs := s.logs ++ [{ message := message, level := level, time := now }] }
  else
    s

/-- Log::log: record at the current threshold's own level. -/
def log (now : Nat) (message : String) (s : LogState) : LogState :=
  log_with_level now (get_level s) message s

/-- Log::log_info. -/
def log_info (now : Nat) (message : String) (s : LogState) : LogState :=
  log_with_level now LogLevel.Info message s

/-- Log::log_debug. -/
def log_debug (now : Nat) (message : String) (s : LogState) : LogState :=
  log_with_level now LogLevel.Debug message s

/-- Log::log_error. -/
def log_error (now : Nat) (message : String) (s : LogState) : LogState :=
  log_with_level now LogLevel.Error message s

/-- Log::log_warn. -/
def log_warn (now : Nat) (message : String) (s : LogState) : LogState :=
  log_with_level now LogLevel.Warn message s

/-- The closure inside Log::get_logs: render one record by the format
string of the source. -/
def render (l : Logger) : String :=
  "[" ++ l.level.fmt_debug ++ "] @ " ++ toString l.time ++ "s → " ++ l.message

/-- Log::get_logs: map the renderer over the buffer, oldest first. -/
def get_logs (s : LogState) : List String :=
  s.logs.map render

/-- Log::get_logs as a state transformer: the call takes only the shared
read lock and performs no write, so the returned lines are paired with the
unchanged state. -/
def get_logs_call (s : LogState) : List String × LogState :=
  (get_logs s, s)

/-- Log::clear: empty the buffer. -/
def clear (s : LogState) : LogState :=
  { s with logs := [] }

/-- The public operations of the facility, as one syntactic type so that
statements can quantify over every operation. -/
inductive Op where
  | set_up_logger (level : LogLevel)
  | log_with_level (now : Nat) (level : LogLevel) (message : String)
  | log (now : Nat) (message : String)
  | log_info (now : Nat) (message : String)
  | log_debug (now : Nat) (message : String)
  | log_error (now : Nat) (message : String)
  | log_warn (now : Nat) (message : String)
  | get_logs
  | print_logs
  | clear
deriving DecidableEq

/-- State effect of each public operation. get_logs and print_logs only
read (print_logs prints each line of get_logs to stdout), so their state
effect is that of get_logs_call. -/
def step : Op → LogState → LogState
  | Op.set_up_logger level, s => set_up_logger level s
  | Op.log_with_level now level message, s => log_with_level now level message s
  | Op.log now message, s => log now message s
  | Op.log_info now message, s => log_info now message s
  | Op.log_debug now message, s => log_debug now message s
  | Op.log_error now message, s => log_error now message s
  | Op.log_warn now message, s => log_warn now message s
  | Op.get_logs, s => (get_logs_call s).2
  | Op.print_logs, s => (get_logs_call s).2
  | Op.clear, s => clear s

/-- One recording call: the time at which it happens, its level and its
message. -/
structure RecordCall where
  now : Nat
  level : LogLevel
  message : String
deriving DecidableEq

/-- Run a sequence of log_with_level calls in order. -/
def run_records (calls : List RecordCall) (s : LogState) : LogState :=
  calls.foldl (fun t c => log_with_level c.now c.level c.message t) s

end Log

namespace ConvertUtils

/-- ConvertUtils::to from src/lib.rs: U::try_from(self).ok(). The TryFrom
instance is passed explicitly as a function into Except, Rust's Result. -/
def «to» {T U E : Type} (try_from : T → Except E U) (self : T) : Option U :=
  (try_from self).toOption

/-- ConvertUtils::to_or: self.to().unwrap_or(fallback). -/
def to_or {T U E : Type} (try_from : T → Except E U) (self : T) (fallback : U) : U :=
  («to» try_from self).getD fallback

/-- ConvertUtils::to_result: U::try_from(self). -/
def to_result {T U E : Type} (try_from : T → Except E U) (self : T) : Except E U :=
  try_from self

/-- A concrete TryFrom instance for exercising the conversions: the Rust
standard library's u8::try_from for u64, succeeding exactly on values that
fit in eight bits. -/
def try_from_u64_u8 (x : Nat) : Except Unit Nat :=
  if x ≤ 255 then Except.ok x else Except.error ()

end ConvertUtils

namespace DurationUtils

/-- DurationUtils::pretty from src/lib.rs, with self already taken to its
whole-second count as by Duration::as_secs. -/
def pretty (self : Nat) : String :=
  let total_secs := self
  let hours := total_secs / 3600
  let mins := (total_secs % 3600) / 60
  let secs := total_secs % 60
  toString hours ++ "h " ++ toString mins ++ "m " ++ toString secs ++ "s"

end DurationUtils

namespace ClampUtils

/-- ClampUtils::clamp_to for i32 from src/lib.rs: self.max(min).min(max),
with the i32 arithmetic-free comparisons modelled on Int. The source's
parameter names min and max are rendered lo and hi. -/
def clamp_to (self lo hi : Int) : Int :=
  min (max self lo) hi

end ClampUtils

/-- Claim C1: for every severity L, threshold (carried by the state s),
time and message, log_with_level appends exactly one record holding that
message, level and time exactly when the priority of L is at most the
priority of the threshold, and returns the state unchanged exactly
otherwise. -/
theorem c1_record_appends_iff (now : Nat) (L : LogLevel) (m : String) (s : LogState) :
    (Log.log_with_level now L m s =
        { logs := s.logs ++ [{ message := m, level := L, time := now }],
          log_level := s.log_level } ↔
      level_priority L ≤ level_priority s.log_level) ∧
    (Log.log_with_level now L m s = s ↔
      ¬ level_priority L ≤ level_priority s.log_level) := by
  obtain ⟨logs, lvl⟩ := s
  by_cases h : level_priority L ≤ level_priority lvl
  · simp [Log.log_with_level, Log.get_level, h]
  · simp [Log.log_with_level, Log.get_level, h]

/-- Claim C2: level_priority maps Error to 1, Warn to 2, Info to 3 and
Debug to 4, and this ordering differs from the declaration order of the
enum, which lists Error, Debug, Info, Warn. -/
theorem c2_priority_values :
    level_priority LogLevel.Error = 1 ∧
    level_priority LogLevel.Warn = 2 ∧
    level_priority LogLevel.Info = 3 ∧
    level_priority LogLevel.Debug = 4 ∧
    LogLevel.decl_order.map level_priority ≠ [1, 2, 3, 4] := by
  decide

/-- Claim C3: the default-level call log records at the threshold's own
level, so for every state it always appends exactly one record, whose
level equals the current threshold. -/
theorem c3_default_level_always_appends (now : Nat) (m : String) (s : LogState) :
    Log.log now m s =
      { logs := s.logs ++ [{ message := m, level := s.log_level, time := now }],
        log_level := s.log_level } := by
  simp [Log.log, Log.log_with_level, Log.get_level]

/-- Claim C4: snapshots list one rendered line per buffered record in
buffer order; after a sequence of passing record calls the snapshot is the
old snapshot followed by one line per call, in call order, each line built
from that call's level, timestamp and message by the source's format. -/
theorem c4_snapshot_lines (s : LogState) (calls : List Log.RecordCall)
    (hpass : ∀ c ∈ calls, level_priority c.level ≤ level_priority s.log_level) :
    Log.get_logs (Log.run_records calls s) =
      Log.get_logs s ++ calls.map (fun c =>
        "[" ++ c.level.fmt_debug ++ "] @ " ++ toString c.now ++ "s → " ++ c.message) := by
  induction calls generalizing s with
  | nil => simp [Log.run_records]
  | cons c cs ih =>
    have hc : level_priority c.level ≤ level_priority s.log_level :=
      hpass c (List.mem_cons_self c cs)
    have hstep : Log.log_with_level c.now c.level c.message s =
        { logs := s.logs ++ [{ message := c.message, level := c.level, time := c.now }],
          log_level := s.log_level } := by
      simp [Log.log_with_level, Log.get_level, hc]
    have htail : ∀ d ∈ cs,
        level_priority d.level ≤
          level_priority (Log.log_with_level c.now c.level c.message s).log_level := by
      rw [hstep]
      intro d hd
      exact hpass d (List.mem_cons_of_mem c hd)
    have hrun : Log.run_records (c :: cs) s =
        Log.run_records cs (Log.log_with_level c.now c.level c.message s) := rfl
    rw [hrun, ih _ htail, hstep]
    simp [Log.get_logs, Log.render]

/-- Witness for C4: threshold Warn, records Error at time 5 and Warn at
time 6; the snapshot is exactly the two rendered lines in call order. -/
theorem c4_witness :
    Log.get_logs (Log.run_records
      [{ now := 5, level := LogLevel.Error, message := "b" },
       { now := 6, level := LogLevel.Warn, message := "c" }]
      { logs := [], log_level := LogLevel.Warn }) =
      ["[Error] @ 5s → b", "[Warn] @ 6s → c"] := by
  have h := c4_snapshot_lines { logs := [], log_level := LogLevel.Warn }
    [{ now := 5, level := LogLevel.Error, message := "b" },
     { now := 6, level := LogLevel.Warn, message := "c" }] (by decide)
  exact h.trans rfl

/-- Claim C5: the two builds disagree on the initial threshold, Info for
the asynchronous build and Debug for the synchronous one, so before any
configure call a Debug record passes the synchronous build's filter but
not the asynchronous build's. -/
theorem c5_default_thresholds_differ :
    initial_async.log_level = LogLevel.Info ∧
    initial_sync.log_level = LogLevel.Debug ∧
    (Log.log_with_level 0 LogLevel.Debug "m" initial_sync).logs.length = 1 ∧
    (Log.log_with_level 0 LogLevel.Debug "m" initial_async).logs.length = 0 := by
  decide

/-- Claim C6: get_logs writes nothing, so its post state is its input
state and a second snapshot taken right after the first returns the same
sequence of lines. -/
theorem c6_snapshot_idempotent (s : LogState) :
    (Log.get_logs_call s).2 = s ∧
    (Log.get_logs_call (Log.get_logs_call s).2).1 = (Log.get_logs_call s).1 :=
  ⟨rfl, rfl⟩

theorem log_with_level_extends_buffer (now : Nat) (level : LogLevel)
    (message : String) (s : LogState) :
    ∃ t, (Log.log_with_level now level message s).logs = s.logs ++ t := by
  unfold Log.log_with_level
  split
  · exact ⟨[{ message := message, level := level, time := now }], rfl⟩
  · exact ⟨[], by simp⟩

/-- Claim C7: clearing leaves the snapshot empty from every prior state,
and clear is the only public operation that removes records: every other
operation leaves the old buffer as a prefix of the new one. -/
theorem c7_clear_empties (s : LogState) :
    Log.get_logs (Log.step Log.Op.clear s) = [] ∧
    ∀ op : Log.Op, op ≠ Log.Op.clear →
      ∃ t, (Log.step op s).logs = s.logs ++ t := by
  refine ⟨rfl, ?_⟩
  intro op hop
  cases op with
  | set_up_logger level => exact ⟨[], by simp [Log.step, Log.set_up_logger]⟩
  | log_with_level now level message => exact log_with_level_extends_buffer now level message s
  | log now message => exact log_with_level_extends_buffer now (Log.get_level s) message s
  | log_info now message => exact log_with_level_extends_buffer now LogLevel.Info message s
  | log_debug now message => exact log_with_level_extends_buffer now LogLevel.Debug message s
  | log_error now message => exact log_with_level_extends_buffer now LogLevel.Error message s
  | log_warn now message => exact log_with_level_extends_buffer now LogLevel.Warn message s
  | get_logs => exact ⟨[], by simp [Log.step, Log.get_logs_call]⟩
  | print_logs => exact ⟨[], by simp [Log.step, Log.get_logs_call]⟩
  | clear => exact absurd rfl hop

/-- Witness for C7: clearing a one-record buffer empties the snapshot, and
a log_error call only extends the buffer. -/
theorem c7_witness :
    Log.get_logs (Log.step Log.Op.clear
      { logs := [{ message := "a", level := LogLevel.Error, time := 5 }],
        log_level := LogLevel.Info }) = [] ∧
    ∃ t, (Log.step (Log.Op.log_error 7 "b")
      { logs := [{ message := "a", level := LogLevel.Error, time := 5 }],
        log_level := LogLevel.Info }).logs =
      [{ message := "a", level := LogLevel.Error, time := 5 }] ++ t :=
  ⟨(c7_clear_empties _).1,
   (c7_clear_empties _).2 (Log.Op.log_error 7 "b") (by decide)⟩

/-- Claim C8: the narrowing conversions are total and explicit. With the
underlying TryFrom conversion given as a function, to returns some exactly
on the converted value of a successful conversion and none exactly on
failure, to_result returns the underlying success or failure cause
unchanged, and to_or returns the converted value on success and the
fallback on failure; each is a total function, so none terminates the
process, and the successful value is always the conversion's own output,
never a truncation performed here. -/
theorem c8_conversions {T U E : Type} (try_from : T → Except E U) (x : T) (fb : U) :
    (∀ u, ConvertUtils.«to» try_from x = some u ↔
        ConvertUtils.to_result try_from x = Except.ok u) ∧
    (ConvertUtils.«to» try_from x = none ↔
        ∃ e, ConvertUtils.to_result try_from x = Except.error e) ∧
    (∀ u, ConvertUtils.to_result try_from x = Except.ok u →
        ConvertUtils.to_or try_from x fb = u) ∧
    (∀ e, ConvertUtils.to_result try_from x = Except.error e →
        ConvertUtils.to_or try_from x fb = fb) ∧
    ConvertUtils.to_result try_from x = try_from x := by
  cases h : try_from x with
  | ok u =>
    simp [ConvertUtils.to, ConvertUtils.to_or, ConvertUtils.to_result,
      Except.toOption, h]
  | error e =>
    simp [ConvertUtils.to, ConvertUtils.to_or, ConvertUtils.to_result,
      Except.toOption, h]

/-- Witness for C8: narrowing 300 to eight bits fails and to_or yields the
fallback, narrowing 42 succeeds and to_or yields 42, and to_result is the
underlying conversion's answer. -/
theorem c8_witness :
    ConvertUtils.to_or ConvertUtils.try_from_u64_u8 300 7 = 7 ∧
    ConvertUtils.to_or ConvertUtils.try_from_u64_u8 42 9 = 42 ∧
    ConvertUtils.to_result ConvertUtils.try_from_u64_u8 300 =
      ConvertUtils.try_from_u64_u8 300 :=
  ⟨(c8_conversions ConvertUtils.try_from_u64_u8 300 7).2.2.2.1 () rfl,
   (c8_conversions ConvertUtils.try_from_u64_u8 42 9).2.2.1 42 rfl,
   (c8_conversions ConvertUtils.try_from_u64_u8 300 7).2.2.2.2⟩

/-- Claim C9: pretty splits the whole-second count as hours = s / 3600,
minutes = (s % 3600) / 60, seconds = s % 60 and renders them with the h, m
and s suffixes; stated over the decomposition 3600 * h + 60 * m + s. -/
theorem c9_pretty_format (h m s : Nat) (hm : m < 60) (hs : s < 60) :
    DurationUtils.pretty (3600 * h + 60 * m + s) =
      toString h ++ "h " ++ toString m ++ "m " ++ toString s ++ "s" := by
  have h1 : (3600 * h + 60 * m + s) / 3600 = h := by omega
  have h2 : (3600 * h + 60 * m + s) % 3600 / 60 = m := by omega
  have h3 : (3600 * h + 60 * m + s) % 60 = s := by omega
  simp [DurationUtils.pretty, h1, h2, h3]

/-- Witness for C9: 3666 seconds render as 1h 1m 6s. -/
theorem c9_witness : DurationUtils.pretty 3666 = "1h 1m 6s" :=
  (c9_pretty_format 1 1 6 (by decide) (by decide)).trans rfl

/-- Claim C10: clamp_to applies the lower bound before the upper bound,
so it equals min (max x lo) hi; when the bounds cross (hi < lo) the result
is the upper bound hi for every input, and when lo ≤ hi the result lies in
the closed interval. -/
theorem c10_clamp_bounds (x lo hi : Int) :
    ClampUtils.clamp_to x lo hi = min (max x lo) hi ∧
    (hi < lo → ClampUtils.clamp_to x lo hi = hi) ∧
    (lo ≤ hi → lo ≤ ClampUtils.clamp_to x lo hi ∧ ClampUtils.clamp_to x lo hi ≤ hi) := by
  refine ⟨rfl, ?_, ?_⟩
  · intro hlt
    exact min_eq_right (le_trans (le_of_lt hlt) (le_max_right x lo))
  · intro hle
    exact ⟨le_min (le_max_right x lo) hle, min_le_right (max x lo) hi⟩

/-- Witness for C10: with crossed bounds 10 and 3 the result is 3; with
bounds 3 and 10 the clamp of 20 lies between 3 and 10. -/
theorem c10_witness :
    ClampUtils.clamp_to 5 10 3 = 3 ∧
    (3 ≤ ClampUtils.clamp_to 20 3 10 ∧ ClampUtils.clamp_to 20 3 10 ≤ 10) :=
  ⟨(c10_clamp_bounds 5 10 3).2.1 (by decide),
   (c10_clamp_bounds 20 3 10).2.2 (by decide)⟩
